import Mathlib

/-!
Shallow embedding of the Challenge_1B pipeline:
`process_pdfs.py` (layout-based structure extraction: heading/title
classification and hierarchy refinement) and `main_pipeline.py`
(section assembly, relevance ranking, output construction).

Machine floats of the source are modelled as rationals; the external
PDF layout engine is modelled by explicit page/block/line/span input
records carrying exactly the fields the source reads; the external
embedding model is modelled by a caller-supplied list of similarity
scores.  Python text functions are modelled character-by-character on
ASCII, matching the source regexes (which use ASCII classes).
-/

namespace Challenge1B

/-! ## Character and string helpers (Python primitives used by the source) -/

/-- ASCII lowercase conversion, as Python `str.lower` acts on ASCII. -/
def pyLowerChar (c : Char) : Char :=
  if c.isUpper then Char.ofNat (c.toNat + 32) else c

/-- Lowercase a character list. -/
def lowerCL (cs : List Char) : List Char := cs.map pyLowerChar

/-- Python `str.strip`: drop leading and trailing whitespace. -/
def stripCL (cs : List Char) : List Char :=
  ((cs.dropWhile Char.isWhitespace).reverse.dropWhile Char.isWhitespace).reverse

/-- Python `str.strip` on strings. -/
def pyStrip (s : String) : String := String.mk (stripCL s.toList)

/-- Collapse each maximal whitespace run to a single space
(the effect of `re.sub(r'\s+', ' ', text)`); the flag records whether
the previous character was whitespace. -/
def collapseWSAux : Bool → List Char → List Char
  | _, [] => []
  | prevWS, c :: rest =>
    if c.isWhitespace then
      if prevWS then collapseWSAux true rest
      else ' ' :: collapseWSAux true rest
    else c :: collapseWSAux false rest

/-- `normalize_text`: collapse whitespace runs to single spaces, then strip. -/
def normalize_text (s : String) : String :=
  String.mk (stripCL (collapseWSAux false s.toList))

/-- Python `str.split()` with no argument: split on whitespace runs,
dropping empty pieces.  The accumulator holds the current word reversed. -/
def pySplitAux : List Char → List Char → List (List Char)
  | [], cur => if cur.isEmpty then [] else [cur.reverse]
  | c :: rest, cur =>
    if c.isWhitespace then
      if cur.isEmpty then pySplitAux rest []
      else cur.reverse :: pySplitAux rest []
    else pySplitAux rest (c :: cur)

/-- Python `str.split()` on a string. -/
def pyWords (s : String) : List String :=
  (pySplitAux s.toList []).map String.mk

/-- Python `str.isupper` on ASCII: at least one cased character and no
lowercase character. -/
def pyIsUpper (s : String) : Bool :=
  s.toList.any (fun c => c.isUpper || c.isLower) &&
    s.toList.all (fun c => !c.isLower)

/-- Python `text.lower().startswith(lit)`. -/
def lcStartsWith (s : String) (lit : String) : Bool :=
  lit.toList.isPrefixOf (lowerCL s.toList)

/-- Python `text.lower().endswith(lit)`. -/
def lcEndsWith (s : String) (lit : String) : Bool :=
  lit.toList.isSuffixOf (lowerCL s.toList)

/-- Match a literal and return the remainder of the input, if it is a prefix. -/
def litThen (lit : List Char) (cs : List Char) : Option (List Char) :=
  if lit.isPrefixOf cs then some (cs.drop lit.length) else none

/-- Regex fragment `\s+`: require at least one whitespace character and
consume the whole run. -/
def ws1Then (cs : List Char) : Option (List Char) :=
  match cs with
  | [] => none
  | c :: rest =>
    if c.isWhitespace then some ((c :: rest).dropWhile Char.isWhitespace)
    else none

/-- Regex fragment `\s*$`: only whitespace remains. -/
def wsEnd (cs : List Char) : Bool := cs.all Char.isWhitespace

/-- Regex fragment `\s+[A-Z]`: at least one whitespace character followed by
an ASCII uppercase letter. -/
def wsUpperAfter (cs : List Char) : Bool :=
  (cs.head?.any Char.isWhitespace) &&
    ((cs.dropWhile Char.isWhitespace).head?.any Char.isUpper)

/-- Regex fragment `\s+[a-z]`. -/
def wsLowerAfter (cs : List Char) : Bool :=
  (cs.head?.any Char.isWhitespace) &&
    ((cs.dropWhile Char.isWhitespace).head?.any Char.isLower)

/-! ## `process_pdfs.py`: configuration constants -/

def MIN_FONT_SIZE_FOR_HEADING : ℚ := 10
def MAX_HEADING_LENGTH_WORDS : ℕ := 30
def MAX_HEADING_LENGTH_CHARS : ℕ := 250
def LARGE_WHITESPACE_THRESHOLD : ℚ := 12
def MEDIUM_WHITESPACE_THRESHOLD : ℚ := 6

/-! ## `process_pdfs.py`: helper predicates -/

/-- A text span as supplied by the layout engine: the fields the source reads. -/
structure Span where
  text : String
  size : ℚ
  flags : ℕ
  font : String
deriving Repr, DecidableEq, Inhabited

/-- Python `needle in hay` on character lists: some suffix of the haystack
starts with the needle. -/
def containsSub (needle : List Char) : List Char → Bool
  | [] => needle.isEmpty
  | c :: rest => needle.isPrefixOf (c :: rest) || containsSub needle rest

/-- `is_bold(span)`: PyMuPDF bold flag (bit 1) or a bold indicator in the
font name. -/
def span_is_bold (s : Span) : Bool :=
  if s.flags &&& 2 > 0 then true
  else
    let fn := lowerCL s.font.toList
    ["bold", "black", "heavy", "demi", "extrab", "fett", "bd", "strong"].any
      (fun ind => containsSub ind.toList fn)

/-- Regex `^\s*\d+\.\s+[a-z]` (numbered list starting with lowercase). -/
def matchNumLower (cs : List Char) : Bool :=
  match (cs.dropWhile Char.isWhitespace).span Char.isDigit with
  | ([], _) => false
  | (_ :: _, r) =>
    match r with
    | '.' :: r2 => wsLowerAfter r2
    | _ => false

/-- Regex `^\s*LIT\s+` for a literal bullet marker. -/
def matchBullet (lit : List Char) (cs : List Char) : Bool :=
  match litThen lit (cs.dropWhile Char.isWhitespace) with
  | some r => r.head?.any Char.isWhitespace
  | none => false

/-- The bullet marker as it appears (mojibake-encoded) in the source. -/
def bulletChars : List Char := "â€¢".toList

/-- `is_list_item(text)`: bullet/dash/asterisk markers or a numbered item
starting a lowercase word. -/
def is_list_item (t : String) : Bool :=
  let cs := t.toList
  matchNumLower cs || matchBullet bulletChars cs ||
    matchBullet ['-'] cs || matchBullet ['*'] cs

/-- Heading levels H1..H4 (the source's level strings). -/
inductive Level where
  | H1 | H2 | H3 | H4
deriving Repr, DecidableEq, Inhabited

/-- Regex `^\s*\d+\.\s+[A-Z]` ("1. Introduction"). -/
def matchH1num (cs : List Char) : Bool :=
  match (cs.dropWhile Char.isWhitespace).span Char.isDigit with
  | ([], _) => false
  | (_ :: _, r) =>
    match r with
    | '.' :: r2 => wsUpperAfter r2
    | _ => false

/-- Regex `^\s*\d+\.\d+\s+[A-Z]` ("2.1 Audience"). -/
def matchH2num (cs : List Char) : Bool :=
  match (cs.dropWhile Char.isWhitespace).span Char.isDigit with
  | ([], _) => false
  | (_ :: _, r) =>
    match r with
    | '.' :: r2 =>
      match r2.span Char.isDigit with
      | ([], _) => false
      | (_ :: _, r3) => wsUpperAfter r3
    | _ => false

/-- Regex `^\s*\d+\.\d+\.\d+\s+[A-Z]` ("3.2.1 Details"). -/
def matchH3num (cs : List Char) : Bool :=
  match (cs.dropWhile Char.isWhitespace).span Char.isDigit with
  | ([], _) => false
  | (_ :: _, r) =>
    match r with
    | '.' :: r2 =>
      match r2.span Char.isDigit with
      | ([], _) => false
      | (_ :: _, r3) =>
        match r3 with
        | '.' :: r4 =>
          match r4.span Char.isDigit with
          | ([], _) => false
          | (_ :: _, r5) => wsUpperAfter r5
        | _ => false
    | _ => false

/-- Regex `^\s*[A-Za-z]+\s+\d+\s*[:.]\s+[A-Z]` ("Chapter 3: Title"). -/
def matchWordNum (cs : List Char) : Bool :=
  match (cs.dropWhile Char.isWhitespace).span (fun c => c.isUpper || c.isLower) with
  | ([], _) => false
  | (_ :: _, r) =>
    match ws1Then r with
    | none => false
    | some r2 =>
      match r2.span Char.isDigit with
      | ([], _) => false
      | (_ :: _, r3) =>
        match r3.dropWhile Char.isWhitespace with
        | ':' :: r4 => wsUpperAfter r4
        | '.' :: r4 => wsUpperAfter r4
        | _ => false

/-- `is_heading_by_numbering(text)`: the four structural numbering patterns,
checked in the source's dictionary order. -/
def is_heading_by_numbering (t : String) : Option Level :=
  let cs := t.toList
  if matchH1num cs then some Level.H1
  else if matchH2num cs then some Level.H2
  else if matchH3num cs then some Level.H3
  else if matchWordNum cs then some Level.H1
  else none

/-- One lexicon pattern of `is_common_heading`, of the form
`^w1\s+w2...\s+wn\s*$` over the lowercased text. -/
def matchWordsEnd (words : List (List Char)) (cs : List Char) : Bool :=
  match words with
  | [] => wsEnd cs
  | w :: rest =>
    match litThen w cs with
    | none => false
    | some r =>
      match rest with
      | [] => wsEnd r
      | _ =>
        match ws1Then r with
        | none => false
        | some r2 => matchWordsEnd rest r2

/-- Regex `^appendix\s+[a-z]\s*:` over the lowercased text (prefix match,
as `re.match` does not anchor the end). -/
def matchAppendixColon (cs : List Char) : Bool :=
  match litThen "appendix".toList cs with
  | none => false
  | some r =>
    match ws1Then r with
    | none => false
    | some r2 =>
      match r2 with
      | c :: r3 => c.isLower && ((r3.dropWhile Char.isWhitespace).head?.any (· = ':'))
      | [] => false

/-- Regex `^appendix\s+[a-z]\s*$` over the lowercased text. -/
def matchAppendixEnd (cs : List Char) : Bool :=
  match litThen "appendix".toList cs with
  | none => false
  | some r =>
    match ws1Then r with
    | none => false
    | some r2 =>
      match r2 with
      | c :: r3 => c.isLower && wsEnd r3
      | [] => false

/-- `is_common_heading(text)`: fixed section names matched case-insensitively,
all mapping to H1. -/
def is_common_heading (t : String) : Option Level :=
  let lc := lowerCL t.toList
  if matchWordsEnd ["table".toList, "of".toList, "contents".toList] lc then some Level.H1
  else if matchWordsEnd ["references".toList] lc then some Level.H1
  else if matchWordsEnd ["acknowledgements".toList] lc then some Level.H1
  else if matchWordsEnd ["revision".toList, "history".toList] lc then some Level.H1
  else if matchWordsEnd ["summary".toList] lc then some Level.H1
  else if matchWordsEnd ["background".toList] lc then some Level.H1
  else if matchAppendixColon lc then some Level.H1
  else if matchAppendixEnd lc then some Level.H1
  else none

/-! ## `process_pdfs.py`: title extraction -/

/-- A line of a layout block: its spans and the bounding box fields the
source reads (`bbox[0]`, `bbox[1]`, `bbox[3]`). -/
structure LineNode where
  spans : List Span
  x0 : ℚ
  y0 : ℚ
  y1 : ℚ
deriving Repr, DecidableEq, Inhabited

/-- A layout block: its type tag (0 = text block) and lines. -/
structure BlockNode where
  typ : ℕ
  lines : List LineNode
deriving Repr, DecidableEq, Inhabited

/-- A page as supplied by the layout engine: its blocks and `page.rect.height`. -/
structure PageRec where
  blocks : List BlockNode
  height : ℚ
deriving Repr, DecidableEq, Inhabited

/-- `looks_like_title`: in the top 40% of the page, at most 15 words,
bold or font size at least 14. -/
def looks_like_title (text : String) (isBoldLine : Bool) (font_size : ℚ)
    (y_position : ℚ) (page_height : ℚ) : Bool :=
  if text.isEmpty then false
  else if y_position > page_height * (4 / 10) then false
  else if (pyWords text).length > 15 then false
  else isBoldLine || font_size ≥ 14

/-- A title candidate record: text, font size, boldness, top y-coordinate. -/
structure TitleCand where
  text : String
  font_size : ℚ
  isBoldLine : Bool
  y0 : ℚ
deriving Repr, DecidableEq, Inhabited

/-- The lines of a page's text blocks, in reading order. -/
def textLines (p : PageRec) : List LineNode :=
  (p.blocks.filter (fun b => b.typ = 0)).flatMap (fun b => b.lines)

/-- Turn one layout line into a title candidate: skip empty span lists and
empty joined text, take characteristics from the first span, keep the line
if `looks_like_title` accepts it. -/
def lineToTitleCand (page_height : ℚ) (line : LineNode) : Option TitleCand :=
  match line.spans with
  | [] => none
  | s0 :: _ =>
    let line_text := pyStrip (String.intercalate " " (line.spans.map Span.text))
    if line_text.isEmpty then none
    else if looks_like_title line_text (span_is_bold s0) s0.size line.y0 page_height then
      some ⟨line_text, s0.size, span_is_bold s0, line.y0⟩
    else none

/-- The title candidates of a page, before sorting. -/
def title_candidates_of (p : PageRec) : List TitleCand :=
  (textLines p).filterMap (lineToTitleCand p.height)

/-- Python `max` over a nonempty list, seeded with its head. -/
def listMaxQ (x : ℚ) (xs : List ℚ) : ℚ := xs.foldl max x

/-- `extract_title_from_page`: sort candidates top-to-bottom, keep the
near-largest font tier (within 90% of the maximum), join the tier members
in the top 25% of the page with single spaces; if none are that high,
fall back to the first (highest) candidate's text; no candidates give "". -/
def extract_title_from_page (p : PageRec) : String :=
  let sorted := (title_candidates_of p).insertionSort (fun a b => a.y0 ≤ b.y0)
  match sorted with
  | [] => ""
  | c :: rest =>
    let max_font := listMaxQ c.font_size (rest.map TitleCand.font_size)
    let top_candidates := (c :: rest).filter (fun x => x.font_size ≥ max_font * (9 / 10))
    let title_parts :=
      (top_candidates.filter (fun x => x.y0 < p.height * (1 / 4))).map TitleCand.text
    if title_parts.isEmpty then c.text
    else String.intercalate " " title_parts

/-! ## `process_pdfs.py`: first pass (line records with metadata) -/

/-- A flat line record produced by the first pass of
`extract_document_structure`: the dictionary the source builds per line. -/
structure BlockRec where
  text : String
  font_size : ℚ
  is_bold : Bool
  y0 : ℚ
  y1 : ℚ
  x0 : ℚ
  whitespace_above : ℚ
  page : ℕ
  flags : ℕ
  font : String
deriving Repr, DecidableEq, Inhabited

/-- First-pass step for one line: skip empty span lists and empty joined
text (leaving `prev_y_bottom` unchanged); otherwise build the record with
first-span characteristics and the whitespace gap above, and advance
`prev_y_bottom` to this line's bottom. -/
def firstPassStep (page_num : ℕ) (acc : List BlockRec × ℚ) (line : LineNode) :
    List BlockRec × ℚ :=
  match line.spans with
  | [] => acc
  | s0 :: _ =>
    let line_text := pyStrip (String.intercalate " " (line.spans.map Span.text))
    if line_text.isEmpty then acc
    else
      let prev := acc.2
      let ws := if prev > 0 then line.y0 - prev else 0
      (acc.1 ++ [⟨line_text, s0.size, span_is_bold s0, line.y0, line.y1, line.x0,
                 ws, page_num, s0.flags, s0.font⟩],
       line.y1)

/-- All line records of a document: pages enumerated from 0, with
`prev_y_bottom` reset to 0 at each page. -/
def all_blocks_of (pages : List PageRec) : List BlockRec :=
  pages.enum.flatMap (fun pr => ((textLines pr.2).foldl (firstPassStep pr.1) ([], 0)).1)

/-! ## `process_pdfs.py`: heading classification (second pass) -/

/-- A heading candidate as built by the classifier. -/
structure Candidate where
  text : String
  level : Level
  page : ℕ
  y0 : ℚ
  font_size : ℚ
  is_pattern_based : Bool
deriving Repr, DecidableEq, Inhabited

/-- `is_visually_heading`: (bold or font at least 1.2x the median), enough
whitespace above, and at most 30 words. -/
def is_visually_heading (median : ℚ) (b : BlockRec) (t : String) : Bool :=
  (b.is_bold || b.font_size ≥ median * (12 / 10)) &&
    b.whitespace_above ≥ MEDIUM_WHITESPACE_THRESHOLD &&
    (pyWords t).length ≤ MAX_HEADING_LENGTH_WORDS

/-- The visual-characteristics level chain of the classifier, including the
all-caps special case; yields none when no branch fires. -/
def visual_level (median : ℚ) (b : BlockRec) (t : String) : Option Level :=
  if b.is_bold && b.font_size ≥ median * (15 / 10) then some Level.H1
  else if b.is_bold && b.font_size ≥ median * (12 / 10) then some Level.H2
  else if b.is_bold || b.font_size ≥ median * (11 / 10) then some Level.H3
  else if pyIsUpper t && t.length > 5 then
    some (if b.font_size ≥ median * (12 / 10) then Level.H1 else Level.H2)
  else none

/-- The classifier's level decision: numbering pattern first, then the
common-heading lexicon, then visual salience. -/
def heading_level_for (median : ℚ) (b : BlockRec) (t : String) : Option Level :=
  match is_heading_by_numbering t with
  | some l => some l
  | none =>
    match is_common_heading t with
    | some l => some l
    | none =>
      if is_visually_heading median b t then visual_level median b t else none

/-- Second-pass step for one line record: normalize the text, skip empties,
texts already seen, and list items; otherwise classify, and on success
append the candidate and record the text as seen. -/
def classifyStep (median : ℚ) (acc : List Candidate × List String) (b : BlockRec) :
    List Candidate × List String :=
  let t := normalize_text b.text
  if t.isEmpty || acc.2.contains t then acc
  else if is_list_item t then acc
  else
    match heading_level_for median b t with
    | some l =>
      (acc.1 ++ [⟨t, l, b.page, b.y0, b.font_size, (is_heading_by_numbering t).isSome⟩],
       acc.2 ++ [t])
    | none => acc

/-! ## `process_pdfs.py`: hierarchy refinement -/

/-- A final outline entry. -/
structure OutlineEntry where
  level : Level
  text : String
  page : ℕ
deriving Repr, DecidableEq, Inhabited

/-- The refiner's regex `^(\d+)\.(\d+)?\.?(\d+)?`: none when the text does
not begin with digits followed by a dot; otherwise whether a subsection
number (digits right after the first dot) is present. -/
def section_match (t : String) : Option Bool :=
  match t.toList.span Char.isDigit with
  | ([], _) => none
  | (_ :: _, r) =>
    match r with
    | '.' :: r2 => some (!(r2.takeWhile Char.isDigit).isEmpty)
    | _ => none

/-- The numbering-consistency rule of the refiner: a subsection number
forces H2, a bare major number forces H1, otherwise the level is kept. -/
def levelAfterNumberFix (h : Candidate) : Level :=
  match section_match h.text with
  | some true => Level.H2
  | some false => Level.H1
  | none => h.level

/-- Refine one candidate given the previously processed entry (if any):
numbering fix, then the H1-to-H3 jump demotion, then the
"for each ... mean:" H4 rule. -/
def refineOne (prev : Option OutlineEntry) (h : Candidate) : OutlineEntry :=
  let l1 := levelAfterNumberFix h
  match prev with
  | none => ⟨l1, h.text, h.page⟩
  | some p =>
    let l2 := if l1 = Level.H3 && p.level = Level.H1 then Level.H2 else l1
    let l3 :=
      if lcStartsWith h.text "for each" && lcEndsWith p.text "mean:" then Level.H4
      else l2
    ⟨l3, h.text, h.page⟩

/-- One iteration of the refiner's loop: the previous processed entry is
the last element of the accumulator. -/
def refineStep (acc : List OutlineEntry) (h : Candidate) : List OutlineEntry :=
  acc ++ [refineOne acc.getLast? h]

/-- `refine_document_structure`: a left-to-right pass over the candidates. -/
def refine_document_structure (headings : List Candidate) : List OutlineEntry :=
  if headings.isEmpty then [] else headings.foldl refineStep []

/-! ## `process_pdfs.py`: document structure extraction -/

/-- `extract_document_structure` from the first-pass line records onward:
median font size, classification fold, sort by (page, y0), refinement. -/
def extract_document_structure (pages : List PageRec) : List OutlineEntry :=
  let all_blocks := all_blocks_of pages
  if all_blocks.isEmpty then []
  else
    let font_sizes := (all_blocks.map BlockRec.font_size).insertionSort (· ≤ ·)
    let median := font_sizes.getD (all_blocks.length / 2) 0
    let cands := (all_blocks.foldl (classifyStep median) ([], [])).1
    let sorted := cands.insertionSort
      (fun a b => a.page < b.page ∨ (a.page = b.page ∧ a.y0 ≤ b.y0))
    refine_document_structure sorted

/-! ## `main_pipeline.py`: section assembly -/

/-- A parsed-JSON outline heading as read by the pipeline: `heading.get("page")`
and `heading.get("text")`, either possibly absent. -/
structure ParsedHeading where
  page : Option ℕ
  text : Option String
deriving Repr, DecidableEq, Inhabited

/-- A section record of the pipeline. -/
structure Section where
  document : String
  page_number : ℕ
  text : String
  section_title : String
deriving Repr, DecidableEq, Inhabited

/-- `extract_text_for_page`: the stripped plain text of the page at the given
1-based position, or "" when the position is out of the 1..page-count range.
The document's pages are modelled by their raw plain texts. -/
def extract_text_for_page (pdf_pages : List String) (page_number : ℕ) : String :=
  if 1 ≤ page_number ∧ page_number ≤ pdf_pages.length then
    pyStrip (pdf_pages.getD (page_number - 1) "")
  else ""

/-- The outline-driven loop of `build_sections_from_parsed_json`: skip headings
missing a page or a text, fetch the page's text, skip empty fetches, and emit
a section carrying the heading's page value and title. -/
def sections_from_outline (pdf_filename : String) (outline : List ParsedHeading)
    (pdf_pages : List String) : List Section :=
  outline.filterMap (fun h =>
    match h.page, h.text with
    | some page_num, some title =>
      let text := extract_text_for_page pdf_pages page_num
      if text.isEmpty then none
      else some ⟨pdf_filename, page_num, text, title⟩
    | _, _ => none)

/-- The page-based fallback: one section per page with nonempty stripped text,
titled "Page n" with n 1-based. -/
def fallback_sections (pdf_filename : String) (pdf_pages : List String) :
    List Section :=
  pdf_pages.enum.filterMap (fun pr =>
    let text := pyStrip pr.2
    if text.isEmpty then none
    else some ⟨pdf_filename, pr.1 + 1, text, "Page " ++ toString (pr.1 + 1)⟩)

/-- `build_sections_from_parsed_json`: the page-based fallback when the
outline is empty (or the parsed JSON failed to load), else the
outline-driven loop. -/
def build_sections_from_parsed_json (pdf_filename : String)
    (outline : List ParsedHeading) (pdf_pages : List String) : List Section :=
  if outline.isEmpty then fallback_sections pdf_filename pdf_pages
  else sections_from_outline pdf_filename outline pdf_pages

/-! ## `main_pipeline.py`: summarization -/

/-- Split as `re.split` with pattern `(?<=[.!?])\s+`: cut after a
sentence-ending character that is followed by whitespace, consuming that
whitespace run.  The accumulator holds the current piece reversed; the flag
is true while inside the separator's whitespace run. -/
def sentSplitAux : List Char → List Char → Bool → List (List Char)
  | [], cur, _ => [cur.reverse]
  | c :: rest, cur, sep =>
    if sep && c.isWhitespace then sentSplitAux rest cur true
    else if (c = '.' || c = '!' || c = '?') && rest.head?.any Char.isWhitespace then
      (c :: cur).reverse :: sentSplitAux rest [] true
    else sentSplitAux rest (c :: cur) false

/-- `create_summary`: strip each sentence piece, drop empties, keep the
first `num_sentences`, join with single spaces. -/
def create_summary (text : String) (num_sentences : ℕ := 3) : String :=
  let sentences := sentSplitAux text.toList [] false
  let selected := ((sentences.map stripCL).filter (fun s => !s.isEmpty)).take num_sentences
  String.intercalate " " (selected.map String.mk)

/-! ## `main_pipeline.py`: ranking and output construction -/

/-- An `extracted_sections` output record; padding entries carry `none`. -/
structure ExtractedSection where
  document : Option String
  section_title : Option String
  importance_rank : ℕ
  page_number : Option ℕ
deriving Repr, DecidableEq, Inhabited

/-- A `subsection_analysis` output record; padding entries carry `none`. -/
structure SubsectionEntry where
  document : Option String
  refined_text : Option String
  page_number : Option ℕ
deriving Repr, DecidableEq, Inhabited

/-- The two output lists of `process_documents` (the metadata block holds
only echoes of the input plus a wall-clock timestamp and is external to the
ranking logic). -/
structure PipelineOutput where
  extracted_sections : List ExtractedSection
  subsection_analysis : List SubsectionEntry
deriving Repr, DecidableEq, Inhabited

/-- `np.argsort(-cos_scores)`: the indices 0..n-1 ordered by descending
score.  numpy's default sort leaves the order of equal scores unspecified;
a stable sort is one concrete refinement of it. -/
def ranked_indices (scores : List ℚ) : List ℕ :=
  (List.range scores.length).insertionSort
    (fun a b => scores.getD b 0 ≤ scores.getD a 0)

/-- The first `top_n` ranked indices. -/
def top_indices (scores : List ℚ) (top_n : ℕ) : List ℕ :=
  (ranked_indices scores).take top_n

/-- Placeholder section for out-of-range index access (never reached when
the score list matches the section list). -/
def dummySection : Section := ⟨"", 0, "", ""⟩

/-- The ranking-and-output stage of `process_documents` (from the
zero-section check through the padding loop).  `scores` stands for the
cosine similarities of the sections' embeddings against the query
embedding, supplied by the external model. -/
def rankAndOutput (all_sections : List Section) (scores : List ℚ) (top_n : ℕ) :
    Except String PipelineOutput :=
  if all_sections.isEmpty then Except.error "No sections extracted from PDFs."
  else
    let top := top_indices scores top_n
    let extracted := top.mapIdx (fun r idx =>
      let s := all_sections.getD idx dummySection
      (⟨some s.document, some s.section_title, r + 1, some s.page_number⟩ :
        ExtractedSection))
    let subs := top.mapIdx (fun _r idx =>
      let s := all_sections.getD idx dummySection
      (⟨some s.document, some (create_summary s.text 3), some s.page_number⟩ :
        SubsectionEntry))
    let k := extracted.length
    let exPads := (List.range (top_n - k)).map (fun j =>
      (⟨none, none, k + j + 1, none⟩ : ExtractedSection))
    let subPads := (List.range (top_n - k)).map (fun _ =>
      (⟨none, none, none⟩ : SubsectionEntry))
    Except.ok ⟨extracted ++ exPads, subs ++ subPads⟩

/-! ## Auxiliary definitions used by the verification -/

/-- The refiner expressed as structural recursion carrying the previously
processed entry, used to reason about `refine_document_structure` (which
folds with the full processed list, consulting only its last element). -/
def refineAux (prev : Option OutlineEntry) : List Candidate → List OutlineEntry
  | [] => []
  | h :: t => refineOne prev h :: refineAux (some (refineOne prev h)) t

/-- Numeric depth of a heading level (H1 = 1 .. H4 = 4). -/
def levelRank : Level → ℕ
  | Level.H1 => 1
  | Level.H2 => 2
  | Level.H3 => 3
  | Level.H4 => 4

/-- Modelled from the spec's wording of the title rule: sort the candidates
top-to-bottom; keep those within 90% of the maximum candidate font size AND
lying in the top 25% of the page, joined with single spaces; if that
selection is empty, the first (highest) candidate's text; the empty string
when there is no candidate at all. -/
def title_spec (p : PageRec) : String :=
  let cands := (title_candidates_of p).insertionSort (fun a b => a.y0 ≤ b.y0)
  match cands with
  | [] => ""
  | c :: rest =>
    let maxf := listMaxQ c.font_size (rest.map TitleCand.font_size)
    let chosen := (c :: rest).filter
      (fun x => x.font_size ≥ maxf * (9 / 10) && x.y0 < p.height * (1 / 4))
    if chosen.isEmpty then c.text
    else String.intercalate " " (chosen.map TitleCand.text)

/-! ## Lemmas about the hierarchy refiner -/

theorem refineOne_text (prev : Option OutlineEntry) (h : Candidate) :
    (refineOne prev h).text = h.text := by
  cases prev <;> rfl

theorem refineOne_page (prev : Option OutlineEntry) (h : Candidate) :
    (refineOne prev h).page = h.page := by
  cases prev <;> rfl

theorem refine_foldl_eq (l : List Candidate) :
    ∀ acc : List OutlineEntry,
      l.foldl refineStep acc = acc ++ refineAux acc.getLast? l := by
  induction l with
  | nil => intro acc; simp [refineAux]
  | cons h t ih =>
    intro acc
    rw [List.foldl_cons]
    show List.foldl refineStep (acc ++ [refineOne acc.getLast? h]) t = _
    rw [ih (acc ++ [refineOne acc.getLast? h]), List.getLast?_concat]
    simp [refineAux]

theorem refine_eq_refineAux (hs : List Candidate) :
    refine_document_structure hs = refineAux none hs := by
  cases hs with
  | nil => rfl
  | cons h t =>
    show List.foldl refineStep [] (h :: t) = _
    rw [refine_foldl_eq]
    rfl

theorem refineAux_length (l : List Candidate) :
    ∀ prev : Option OutlineEntry, (refineAux prev l).length = l.length := by
  induction l with
  | nil => intro prev; rfl
  | cons h t ih => intro prev; simp [refineAux, ih]

theorem refineAux_map_text (l : List Candidate) :
    ∀ prev : Option OutlineEntry,
      (refineAux prev l).map OutlineEntry.text = l.map Candidate.text := by
  induction l with
  | nil => intro prev; rfl
  | cons h t ih =>
    intro prev
    simp [refineAux, ih, refineOne_text]

theorem refineOne_level_ne_H3 (p : OutlineEntry) (h : Candidate)
    (hp : p.level = Level.H1) : (refineOne (some p) h).level ≠ Level.H3 := by
  simp only [refineOne]
  split
  · intro e; exact absurd e (by decide)
  · split
    · intro e; exact absurd e (by decide)
    · rename_i hcond
      intro e
      rw [e, hp] at hcond
      exact hcond (by decide)

theorem refineAux_no_H1_H3 (l : List Candidate) :
    ∀ prev : Option OutlineEntry,
      List.Chain' (fun a b : OutlineEntry => ¬(a.level = Level.H1 ∧ b.level = Level.H3))
        (refineAux prev l)
      ∧ ∀ p : OutlineEntry, prev = some p →
          ∀ x ∈ (refineAux prev l).head?, ¬(p.level = Level.H1 ∧ x.level = Level.H3) := by
  induction l with
  | nil =>
    intro prev
    exact ⟨List.chain'_nil, fun p _ x hx => by simp [refineAux] at hx⟩
  | cons h t ih =>
    intro prev
    constructor
    · rw [refineAux, List.chain'_cons']
      exact ⟨fun y hy => (ih (some (refineOne prev h))).2 _ rfl y hy,
             (ih (some (refineOne prev h))).1⟩
    · intro p hprev x hx
      simp only [refineAux, List.head?_cons, Option.mem_def, Option.some_inj] at hx
      subst hx
      subst hprev
      rintro ⟨hp1, hx3⟩
      exact refineOne_level_ne_H3 p h hp1 hx3

/-- **C3 (amended).** After refinement, an entry of level H3 never
immediately follows an entry of level H1: the refiner demotes such an H3 to
H2 before appending it, and the only later override produces H4.  (This is
the only adjacency the refiner forbids; see the counterexample.) -/
theorem c3_no_H1_then_H3 (hs : List Candidate) :
    List.Chain' (fun a b : OutlineEntry => ¬(a.level = Level.H1 ∧ b.level = Level.H3))
      (refine_document_structure hs) := by
  rw [refine_eq_refineAux]
  exact (refineAux_no_H1_H3 hs none).1

/-- **C3 (counterexample).** The claim that no two adjacent refined entries
differ by more than one level step is false: an H3 entry directly followed
by an H1 entry (an upward jump of two steps) survives refinement unchanged. -/
theorem c3_counterexample :
    ¬ ∀ hs : List Candidate,
        List.Chain' (fun a b : OutlineEntry =>
            levelRank a.level - levelRank b.level ≤ 1 ∧
            levelRank b.level - levelRank a.level ≤ 1)
          (refine_document_structure hs) := by
  intro hcl
  have hr : refine_document_structure
      [⟨"ALPHA", Level.H3, 0, 0, 12, false⟩, ⟨"BETA", Level.H1, 0, 1, 12, false⟩] =
      [⟨Level.H3, "ALPHA", 0⟩, ⟨Level.H1, "BETA", 0⟩] := by decide
  have hch := hcl [⟨"ALPHA", Level.H3, 0, 0, 12, false⟩, ⟨"BETA", Level.H1, 0, 1, 12, false⟩]
  rw [hr, List.chain'_cons] at hch
  exact absurd hch.1 (by decide)

/-! ## Lemmas towards C5: numbered headings in the refiner -/

theorem digit_not_upper (c : Char) (h : c.isDigit = true) : c.isUpper = false := by
  by_contra hc
  rw [Bool.not_eq_false] at hc
  simp only [Char.isDigit, Char.isUpper, Bool.and_eq_true, decide_eq_true_eq,
    UInt32.le_def, ge_iff_le, BitVec.le_def] at h hc
  have e48 : ((48 : UInt32).toBitVec).toNat = 48 := rfl
  have e57 : ((57 : UInt32).toBitVec).toNat = 57 := rfl
  have e65 : ((65 : UInt32).toBitVec).toNat = 65 := rfl
  have e90 : ((90 : UInt32).toBitVec).toNat = 90 := rfl
  omega

theorem section_match_head (t : String) (b : Bool) (h : section_match t = some b) :
    ∃ c cs, t.toList = c :: cs ∧ c.isDigit = true := by
  rcases e : t.toList with _ | ⟨c, cs⟩
  · rw [section_match, e, List.span_eq_take_drop] at h
    simp at h
  · rcases hpc : c.isDigit with _ | _
    · rw [section_match, e, List.span_eq_take_drop, List.takeWhile_cons, hpc] at h
      simp at h
    · exact ⟨c, cs, rfl, hpc⟩

theorem lcStartsWith_forEach_false (t : String)
    (hd : ∃ c cs, t.toList = c :: cs ∧ c.isDigit = true) :
    lcStartsWith t "for each" = false := by
  obtain ⟨c, cs, e, hdig⟩ := hd
  have hne : c ≠ 'f' := by
    intro hc; rw [hc] at hdig; exact absurd hdig (by decide)
  have hlow : pyLowerChar c = c := by
    rw [pyLowerChar, digit_not_upper c hdig]
    rfl
  rw [lcStartsWith, lowerCL, e]
  show List.isPrefixOf ('f' :: "or each".toList) (pyLowerChar c :: cs.map pyLowerChar) = false
  rw [List.isPrefixOf, hlow]
  simp [hne.symm]

theorem refineOne_H2_of_sub (prev : Option OutlineEntry) (h : Candidate)
    (hs : section_match h.text = some true) : (refineOne prev h).level = Level.H2 := by
  have l1 : levelAfterNumberFix h = Level.H2 := by
    rw [levelAfterNumberFix, hs]
  have hfe : lcStartsWith h.text "for each" = false :=
    lcStartsWith_forEach_false _ (section_match_head _ _ hs)
  cases prev with
  | none => simp [refineOne, l1]
  | some p => simp [refineOne, l1, hfe]

theorem refineAux_getD_H2 (l : List Candidate) :
    ∀ (prev : Option OutlineEntry) (i : ℕ), i < l.length →
      section_match ((l.getD i default).text) = some true →
      ((refineAux prev l).getD i default).level = Level.H2 := by
  induction l with
  | nil => intro prev i hi; simp at hi
  | cons h t ih =>
    intro prev i hi hsec
    cases i with
    | zero =>
      rw [refineAux]
      exact refineOne_H2_of_sub prev h (by simpa using hsec)
    | succ j =>
      rw [refineAux]
      simp only [List.getD_cons_succ] at hsec ⊢
      exact ih (some (refineOne prev h)) j (by simpa using hi) hsec

/-- **C5 (counterexample).** The numbering pattern classifies
"1.2.3 Details" as H3, but the refiner does not leave it at H3: it forces
the level to H2 (its subsection-number rule tests only whether digits
follow the first dot, regardless of the already-matched level). -/
theorem c5_counterexample :
    is_heading_by_numbering "1.2.3 Details" = some Level.H3 ∧
    ((refine_document_structure
        [⟨"1.2.3 Details", Level.H3, 0, 0, 12, true⟩]).map OutlineEntry.level =
      [Level.H2]) := by
  constructor
  · decide
  · decide

/-- **C5 (amended).** For every heading candidate whose text begins with a
two- or three-part numeric prefix ("N.M" or "N.M.K"), the refiner forces
the output level to H2 — including candidates the numbering pattern had
already classified as H3. -/
theorem c5_subsection_forced_H2 (hs : List Candidate) (i : ℕ) (hi : i < hs.length)
    (hnum : section_match ((hs.getD i default).text) = some true) :
    ((refine_document_structure hs).getD i default).level = Level.H2 := by
  rw [refine_eq_refineAux]
  exact refineAux_getD_H2 hs none i hi hnum

/-- Witness for C5's amended theorem at the concrete counterexample input. -/
theorem c5_witness :
    ((refine_document_structure
        [⟨"1.2.3 Details", Level.H3, 0, 0, 12, true⟩]).getD 0 default).level =
      Level.H2 :=
  c5_subsection_forced_H2 [⟨"1.2.3 Details", Level.H3, 0, 0, 12, true⟩] 0
    (by decide) (by decide)

/-! ## Lemmas towards C6: no duplicated heading text -/

theorem classifyStep_inv (median : ℚ) (acc : List Candidate × List String)
    (b : BlockRec) (h1 : acc.2 = acc.1.map Candidate.text) (h2 : acc.2.Nodup) :
    (classifyStep median acc b).2 = (classifyStep median acc b).1.map Candidate.text ∧
      (classifyStep median acc b).2.Nodup := by
  simp only [classifyStep]
  split
  · exact ⟨h1, h2⟩
  · rename_i hseen
    split
    · exact ⟨h1, h2⟩
    · split
      · rename_i l _
        refine ⟨by simp [h1], ?_⟩
        have hmem : normalize_text b.text ∉ acc.2 := by
          intro hm
          rw [Bool.or_eq_true, not_or] at hseen
          exact hseen.2 (by
            simpa [List.contains, List.elem_iff] using hm)
        rw [List.nodup_append]
        exact ⟨h2, List.nodup_singleton _, by simpa using hmem⟩
      · exact ⟨h1, h2⟩

theorem classifyFold_inv (median : ℚ) (bs : List BlockRec) :
    ∀ acc : List Candidate × List String,
      acc.2 = acc.1.map Candidate.text → acc.2.Nodup →
      ((bs.foldl (classifyStep median) acc).2 =
          (bs.foldl (classifyStep median) acc).1.map Candidate.text ∧
        (bs.foldl (classifyStep median) acc).2.Nodup) := by
  induction bs with
  | nil => intro acc h1 h2; exact ⟨h1, h2⟩
  | cons b t ih =>
    intro acc h1 h2
    rw [List.foldl_cons]
    exact ih _ (classifyStep_inv median acc b h1 h2).1 (classifyStep_inv median acc b h1 h2).2

theorem cands_map_text_nodup (median : ℚ) (blocks : List BlockRec) :
    (((blocks.foldl (classifyStep median) ([], [])).1).map Candidate.text).Nodup := by
  have h := classifyFold_inv median blocks ([], []) rfl List.nodup_nil
  rw [← h.1]
  exact h.2

/-- **C6 (confirmed).** The outline produced by structure extraction never
contains two entries with the same normalized heading text: the classifier
skips any text already in its seen-set, sorting permutes the candidates,
and refinement preserves each entry's text. -/
theorem c6_no_duplicate_heading_text (pages : List PageRec) :
    ((extract_document_structure pages).map OutlineEntry.text).Nodup := by
  simp only [extract_document_structure]
  split
  · simp
  · rw [refine_eq_refineAux, refineAux_map_text]
    exact (((List.perm_insertionSort _ _).map Candidate.text).symm).nodup
      (cands_map_text_nodup _ _)

/-! ## C7: title extraction matches its specification -/

/-- **C7 (confirmed).** The title extractor agrees with the spec's
description everywhere: empty string when no line qualifies; otherwise the
top-to-bottom single-space join of the candidates that are both within 90%
of the maximum candidate font size and in the top 25% of the page; and when
that selection is empty, the text of the single highest candidate.  Both
sides are total functions, so no input can raise. -/
theorem c7_title_matches_spec (p : PageRec) :
    extract_title_from_page p = title_spec p := by
  simp only [extract_title_from_page, title_spec]
  cases h : (title_candidates_of p).insertionSort (fun a b => a.y0 ≤ b.y0) with
  | nil => rfl
  | cons c rest =>
    simp only [List.filter_filter]
    have hcongr :
        List.filter (fun x =>
            decide (x.y0 < p.height * (1 / 4)) &&
              decide (x.font_size ≥
                listMaxQ c.font_size (rest.map TitleCand.font_size) * (9 / 10)))
          (c :: rest) =
        List.filter (fun x =>
            decide (x.font_size ≥
                listMaxQ c.font_size (rest.map TitleCand.font_size) * (9 / 10)) &&
              decide (x.y0 < p.height * (1 / 4)))
          (c :: rest) :=
      List.filter_congr (fun a _ => Bool.and_comm _ _)
    rw [hcongr]
    rcases e : List.filter (fun x =>
        decide (x.font_size ≥
            listMaxQ c.font_size (rest.map TitleCand.font_size) * (9 / 10)) &&
          decide (x.y0 < p.height * (1 / 4))) (c :: rest) with _ | ⟨d, ds⟩
    · simp [e]
    · simp [e]

/-! ## C8: the all-caps fallback of the visual classifier -/

/-- **C8 (confirmed).** A normalized line that matches neither the numbering
nor the lexicon tier, qualifies as visually salient, satisfies none of the
three bold/ratio level rules, is all-uppercase, and is longer than five
characters, is still assigned a level: H1 when its font size is at least
1.2x the median, H2 otherwise.  (Note: the joint hypotheses force a
negative median — for nonnegative font data, salience already implies the
third bold/ratio rule, so this branch cannot fire.) -/
theorem c8_allcaps_fallback (median : ℚ) (b : BlockRec) (t : String)
    (hpat : is_heading_by_numbering t = none)
    (hcom : is_common_heading t = none)
    (hsal : is_visually_heading median b t = true)
    (_hr1 : ¬(b.is_bold = true ∧ b.font_size ≥ median * (15 / 10)))
    (_hr2 : ¬(b.is_bold = true ∧ b.font_size ≥ median * (12 / 10)))
    (hr3 : ¬(b.is_bold = true ∨ b.font_size ≥ median * (11 / 10)))
    (hup : pyIsUpper t = true) (hlen : 5 < t.length) :
    heading_level_for median b t =
      some (if b.font_size ≥ median * (12 / 10) then Level.H1 else Level.H2) := by
  rw [not_or] at hr3
  have hbold : b.is_bold = false := by
    rcases hr3.1 with h
    cases hb : b.is_bold
    · rfl
    · exact absurd hb h
  rw [heading_level_for, hpat, hcom, if_pos hsal, visual_level, hbold]
  simp only [Bool.false_and, Bool.false_or, if_neg, Bool.and_eq_true, false_and]
  rw [if_neg (by simp), if_neg (by simp), if_neg (by simp [hr3.2]),
    if_pos (by simp [hup]; omega)]

/-- Witness for C8 at a concrete input satisfying all hypotheses (negative
median, non-bold all-caps line). -/
theorem c8_witness :
    heading_level_for (-10) ⟨"ABCDEF", -12, false, 0, 0, 0, 6, 0, 0, ""⟩ "ABCDEF" =
      some Level.H1 := by
  have hw : (pyWords "ABCDEF").length = 1 := by decide
  have h := c8_allcaps_fallback (-10) ⟨"ABCDEF", -12, false, 0, 0, 0, 6, 0, 0, ""⟩
    "ABCDEF" (by decide) (by decide)
    (by
      rw [is_visually_heading]
      norm_num [MEDIUM_WHITESPACE_THRESHOLD, MAX_HEADING_LENGTH_WORDS, hw])
    (by intro hc; exact absurd hc.1 (by decide))
    (by intro hc; exact absurd hc.1 (by decide))
    (by norm_num)
    (by decide) (by decide)
  rw [h, if_pos (by norm_num)]

/-! ## C9: the zero-section fatal condition -/

/-- **C9 (confirmed).** The ranking stage raises exactly on an empty pooled
section list: with zero sections it produces the distinct error
"No sections extracted from PDFs." (the source's `RuntimeError`), and with
at least one section it returns an output normally. -/
theorem c9_error_iff_no_sections :
    (∀ (scores : List ℚ) (top_n : ℕ),
      rankAndOutput [] scores top_n =
        Except.error "No sections extracted from PDFs.") ∧
    ∀ (all_sections : List Section) (scores : List ℚ) (top_n : ℕ),
      all_sections ≠ [] →
      ∃ out, rankAndOutput all_sections scores top_n = Except.ok out := by
  constructor
  · intro scores top_n; rfl
  · intro s scores top_n hne
    simp only [rankAndOutput]
    rw [if_neg (fun h => hne (List.isEmpty_iff.1 h))]
    exact ⟨_, rfl⟩

/-- Witness for C9 at concrete inputs: the empty collection errors, a
one-section collection succeeds. -/
theorem c9_witness :
    rankAndOutput [] [] 5 = Except.error "No sections extracted from PDFs." ∧
    ∃ out, rankAndOutput [⟨"d", 1, "t", "T"⟩] [(1 : ℚ)] 5 = Except.ok out :=
  ⟨c9_error_iff_no_sections.1 [] 5,
   c9_error_iff_no_sections.2 [⟨"d", 1, "t", "T"⟩] [(1 : ℚ)] 5 (by simp)⟩

/-! ## C1: exact top-N output size with null padding and dense ranks -/

theorem top_indices_length (scores : List ℚ) (top_n : ℕ) :
    (top_indices scores top_n).length = min top_n scores.length := by
  rw [top_indices, List.length_take, ranked_indices, List.length_insertionSort,
    List.length_range]

theorem getD_mapIdx {α β : Type} (f : ℕ → α → β) (l : List α) (i : ℕ)
    (h : i < l.length) (dβ : β) (dα : α) :
    (l.mapIdx f).getD i dβ = f i (l.getD i dα) := by
  rw [List.getD_eq_getElem _ _ (by rw [List.length_mapIdx]; exact h),
    List.getElem_mapIdx, List.getD_eq_getElem _ _ h]

theorem getD_append_pad {β : Type} (A : List β) (m : ℕ) (g : ℕ → β) (i : ℕ) (d : β)
    (h1 : A.length ≤ i) (h2 : i < A.length + m) :
    (A ++ (List.range m).map g).getD i d = g (i - A.length) := by
  rw [List.getD_append_right _ _ _ _ h1,
    List.getD_eq_getElem _ _ (by rw [List.length_map, List.length_range]; omega),
    List.getElem_map, List.getElem_range]

/-- **C1 (confirmed).** Whenever the ranking stage returns an output, both
output lists have exactly `top_n` entries; importance ranks run densely
1..top_n; and every entry at a position at or beyond the number of real
sections is a padding entry whose document, section title, page number and
refined text fields are all null. -/
theorem c1_output_padded_to_top_n (all_sections : List Section) (scores : List ℚ)
    (top_n : ℕ) (out : PipelineOutput)
    (hlen : scores.length = all_sections.length)
    (hok : rankAndOutput all_sections scores top_n = Except.ok out) :
    out.extracted_sections.length = top_n ∧
    out.subsection_analysis.length = top_n ∧
    (∀ i, i < top_n →
      (out.extracted_sections.getD i default).importance_rank = i + 1) ∧
    (∀ i, min top_n all_sections.length ≤ i → i < top_n →
      (out.extracted_sections.getD i default).document = none ∧
      (out.extracted_sections.getD i default).section_title = none ∧
      (out.extracted_sections.getD i default).page_number = none ∧
      (out.subsection_analysis.getD i default).document = none ∧
      (out.subsection_analysis.getD i default).refined_text = none ∧
      (out.subsection_analysis.getD i default).page_number = none) := by
  simp only [rankAndOutput] at hok
  split at hok
  · exact absurd hok (by simp)
  · rw [Except.ok.injEq] at hok
    subst hok
    simp only [List.length_mapIdx]
    have hk : (top_indices scores top_n).length = min top_n all_sections.length := by
      rw [top_indices_length, hlen]
    have hkle : (top_indices scores top_n).length ≤ top_n := by
      rw [hk]; exact Nat.min_le_left _ _
    refine ⟨?_, ?_, ?_, ?_⟩
    · simp only [List.length_append, List.length_mapIdx, List.length_map,
        List.length_range]
      omega
    · simp only [List.length_append, List.length_mapIdx, List.length_map,
        List.length_range]
      omega
    · intro i hi
      by_cases hcase : i < (top_indices scores top_n).length
      · rw [List.getD_append _ _ _ _ (by rwa [List.length_mapIdx]),
          getD_mapIdx _ _ _ hcase _ 0]
      · rw [Nat.not_lt] at hcase
        rw [getD_append_pad _ _ _ _ _ (by rwa [List.length_mapIdx])
          (by rw [List.length_mapIdx]; omega)]
        simp only [List.length_mapIdx]
        omega
    · intro i hlow hi
      have hge : (top_indices scores top_n).length ≤ i := by rw [hk]; exact hlow
      refine ⟨?_, ?_, ?_, ?_, ?_, ?_⟩ <;>
        rw [getD_append_pad _ _ _ _ _ (by rwa [List.length_mapIdx])
          (by rw [List.length_mapIdx]; omega)]

/-- Witness for C1: one real section, top-3 requested; the output has three
entries per list and the third is a null pad. -/
theorem c1_witness :
    ∃ out, rankAndOutput [⟨"d", 1, "t", "T"⟩] [(1 : ℚ)] 3 = Except.ok out ∧
      out.extracted_sections.length = 3 ∧
      out.subsection_analysis.length = 3 ∧
      (out.extracted_sections.getD 2 default).document = none := by
  have h := c1_output_padded_to_top_n [⟨"d", 1, "t", "T"⟩] [(1 : ℚ)] 3
    (⟨[⟨some "d", some "T", 1, some 1⟩, ⟨none, none, 2, none⟩, ⟨none, none, 3, none⟩],
      [⟨some "d", some "t", some 1⟩, ⟨none, none, none⟩, ⟨none, none, none⟩]⟩)
    rfl rfl
  exact ⟨_, rfl, h.1, h.2.1, (h.2.2.2 2 (by decide) (by decide)).1⟩

/-! ## C2: ranking is by non-increasing similarity -/

/-- **C2 (confirmed).** The selected indices are ordered by non-increasing
similarity score — for returned ranks i < j the score at rank j never
exceeds the score at rank i — and on the spec's scenario (scores 0.8, 0.3,
0.5 with top 2) the output is exactly [A at rank 1, C at rank 2]. -/
theorem c2_sorted_desc :
    (∀ (scores : List ℚ) (top_n i j : ℕ), i < j →
      j < (top_indices scores top_n).length →
        scores.getD ((top_indices scores top_n).getD j 0) 0 ≤
          scores.getD ((top_indices scores top_n).getD i 0) 0) ∧
    rankAndOutput
        [⟨"docA", 1, "alpha", "A"⟩, ⟨"docB", 2, "beta", "B"⟩,
         ⟨"docC", 3, "gamma", "C"⟩]
        [(0.8 : ℚ), 0.3, 0.5] 2 =
      Except.ok
        ⟨[⟨some "docA", some "A", 1, some 1⟩, ⟨some "docC", some "C", 2, some 3⟩],
         [⟨some "docA", some "alpha", some 1⟩,
          ⟨some "docC", some "gamma", some 3⟩]⟩ := by
  constructor
  · intro scores top_n i j hij hj
    have hsorted : List.Pairwise (fun a b : ℕ => scores.getD b 0 ≤ scores.getD a 0)
        (ranked_indices scores) := by
      haveI : IsTotal ℕ (fun a b : ℕ => scores.getD b 0 ≤ scores.getD a 0) :=
        ⟨fun a b => le_total _ _⟩
      haveI : IsTrans ℕ (fun a b : ℕ => scores.getD b 0 ≤ scores.getD a 0) :=
        ⟨fun a b c h1 h2 => le_trans h2 h1⟩
      exact List.sorted_insertionSort _ _
    have hp : List.Pairwise (fun a b : ℕ => scores.getD b 0 ≤ scores.getD a 0)
        (top_indices scores top_n) :=
      List.Pairwise.sublist (List.take_sublist _ _) hsorted
    have hi' : i < (top_indices scores top_n).length := lt_trans hij hj
    have hg := List.pairwise_iff_getElem.1 hp i j hi' hj hij
    rwa [List.getD_eq_getElem _ _ hj, List.getD_eq_getElem _ _ hi']
  · have h1 : ¬ ((0.5 : ℚ) ≤ 0.3) := by norm_num
    have h2 : ((0.5 : ℚ) ≤ 0.8) := by norm_num
    have htop : top_indices [(0.8 : ℚ), 0.3, 0.5] 2 = [0, 2] := by
      simp only [top_indices, ranked_indices, List.length_cons, List.length_nil]
      rw [show (0 : ℕ) + 1 + 1 + 1 = 3 from rfl, show List.range 3 = [0, 1, 2] from rfl]
      simp [List.insertionSort, List.orderedInsert, h1, h2]
    simp only [rankAndOutput, htop]
    rw [if_neg (by simp)]
    exact congrArg Except.ok (by decide)

/-- Witness for C2's sortedness at the scenario input: the score at rank 2
is at most the score at rank 1. -/
theorem c2_witness :
    [(0.8 : ℚ), 0.3, 0.5].getD ((top_indices [(0.8 : ℚ), 0.3, 0.5] 2).getD 1 0) 0 ≤
      [(0.8 : ℚ), 0.3, 0.5].getD ((top_indices [(0.8 : ℚ), 0.3, 0.5] 2).getD 0 0) 0 := by
  refine c2_sorted_desc.1 [(0.8 : ℚ), 0.3, 0.5] 2 0 1 (by norm_num) ?_
  rw [top_indices_length]
  norm_num

/-! ## C4: the outline-driven sections' page numbering (code bug) -/

/-- **C4 (code bug evaluation).** An outline entry recorded on 0-based page 1
(the second page) yields a section whose `page_number` is 1 — the raw
outline value, not the 1-based 2 the spec states — and whose text is the
first page's text (the 0-based page value is interpreted as 1-based when
fetching text).  The page-based fallback, by contrast, is genuinely
1-based, so the two paths disagree. -/
theorem c4_code_eval :
    sections_from_outline "doc.pdf" [⟨some 1, some "Intro"⟩]
        ["First page body", "Second page body"] =
      [⟨"doc.pdf", 1, "First page body", "Intro"⟩] ∧
    (sections_from_outline "doc.pdf" [⟨some 1, some "Intro"⟩]
        ["First page body", "Second page body"]).map Section.page_number ≠ [1 + 1] ∧
    (fallback_sections "doc.pdf" ["First page body", "Second page body"]).map
        Section.page_number = [1, 2] := by
  refine ⟨by decide, by decide, by decide⟩

/-! ## C10: outline entries on page 0 are silently skipped -/

/-- **C10 (confirmed).** `extract_text_for_page` returns "" for page number
0 (it reads only 1-based positions 1..page count), so the outline-driven
assembler never emits a section for an outline entry whose page field is 0:
every emitted section carries a nonzero page number. -/
theorem c10_page_zero_entries_skipped :
    (∀ pdf_pages : List String, extract_text_for_page pdf_pages 0 = "") ∧
    ∀ (pdf_filename : String) (outline : List ParsedHeading)
      (pdf_pages : List String) (s : Section),
      s ∈ sections_from_outline pdf_filename outline pdf_pages →
      s.page_number ≠ 0 := by
  constructor
  · intro pages
    rw [extract_text_for_page, if_neg]
    rintro ⟨h, _⟩
    omega
  · intro fn outline pages s hs
    obtain ⟨hd, _hmem, hf⟩ := List.mem_filterMap.1 hs
    rcases hp : hd.page with _ | page <;> rcases ht : hd.text with _ | title <;>
      rw [hp, ht] at hf <;>
      simp only [] at hf
    · exact absurd hf (by simp)
    · exact absurd hf (by simp)
    · exact absurd hf (by simp)
    · by_cases he : (extract_text_for_page pages page).isEmpty
      · rw [if_pos he] at hf
        exact absurd hf (by simp)
      · rw [if_neg he] at hf
        rw [Option.some_inj] at hf
        intro h0
        rw [← hf] at h0
        simp only [] at h0
        subst h0
        rw [extract_text_for_page, if_neg (by rintro ⟨h, _⟩; omega)] at he
        exact he rfl

/-- Witness for C10: with one page and an outline holding a page-0 and a
page-1 entry, only the page-1 entry yields a section, and its page number
is nonzero. -/
theorem c10_witness :
    extract_text_for_page ["Body"] 0 = "" ∧
    (⟨"d", 1, "Body", "U"⟩ : Section).page_number ≠ 0 :=
  ⟨c10_page_zero_entries_skipped.1 ["Body"],
   c10_page_zero_entries_skipped.2 "d" [⟨some 0, some "T"⟩, ⟨some 1, some "U"⟩]
     ["Body"] ⟨"d", 1, "Body", "U"⟩ (by decide)⟩

end Challenge1B
